import Mathlib

/-! Verification of `Variant.cpp`: genotype classification and locus-level
INFO access.

A shallow embedding of `src/c++/lib/variant/Variant.cpp`.

* `variant.getGTType` is the genotype classifier.  Array reads `var.gt[i]` are
  embedded as checked reads `var.gt[i]?`, so the classifier returns an
  `Option`: `none` stands for a read outside the allele sequence.
* The `Variants::getInfo*`, `setInfo` and `delInfo` members loop over
  `calls` and talk to the record store through `bcfhelpers::*` and the
  `bcf_update_info_*` entry points.  Those live outside `Variant.cpp`; they are
  modelled on a heap of records addressed by handles, so that two calls may
  share one record as the shared pointers of `Call` allow.

* The `operator<<` overloads are embedded as the text they insert into the
  stream (`show_gttype`, `Call.render`, `Variants.render`).
* `Variants::Variants()` is embedded as a step on the counter `MAX_VID`, a
  `uint64_t` that wraps at `2 ^ 64`.

C++ `int` values are embedded as `Int`; the classifier and the INFO accessors
do no arithmetic on them (only comparisons and copies), so no wrap-around can
occur there.  `size_t` values are `Nat`.  The one signed computation,
`v.pos + v.len - 1` in `operator<<(Variants)`, is done in 64-bit two's
complement arithmetic (`int64_add`, `int64_sub`).  Floating-point values enter
`Variants::getInfoFloat` only through the NaN test, the narrowing cast and the
quiet NaN, which are parameters of its embedding.
-/

namespace variant

/-! ## Data model -/

/-- Genotype categories, `enum gttype`. -/
inductive gttype where
  | gt_homref
  | gt_haploid
  | gt_het
  | gt_homalt
  | gt_hetalt
  | gt_unknown
  deriving DecidableEq, Repr

/-- One sample's call at a locus (`struct Call`): the allele slots `gt`, the
number `ngt` of slots in use, the `phased` flag, the filter tags with their
count, and the handles of the header and the record the call refers to. -/
structure Call where
  gt : List Int
  ngt : Nat
  phased : Bool
  nfilter : Nat
  filter : List String
  bcf_hdr : Nat
  bcf_rec : Nat
  deriving DecidableEq, Repr

/-- The locus-level aggregate (`class Variants`).  The variation descriptors
`RefVar` are declared elsewhere and are opaque here, hence a type parameter. -/
structure Variants (RefVar : Type) where
  id : Nat
  chr : String
  pos : Int
  len : Int
  variation : List RefVar
  calls : List Call
  ambiguous_alleles : List (List Int)

/-! ## Genotype classifier -/

/-- Source: `gttype getGTType(Call const& var)`, lines 49-89.

Every path through the `ngt == 2` branch reads both `gt[0]` and `gt[1]`
(if `gt[0] == 0` the first test reads `gt[1]`, otherwise the second disjunct
of the `het` test does), so both are read up front. -/
def getGTType (var : Call) : Option gttype :=
  if var.ngt > 0 then
    if var.ngt = 1 then
      match var.gt[0]? with
      | none => none
      | some g0 =>
        if g0 > 0 then some gttype.gt_haploid
        else if g0 = 0 then some gttype.gt_homref
        else some gttype.gt_unknown
    else if var.ngt = 2 then
      match var.gt[0]?, var.gt[1]? with
      | some g0, some g1 =>
        if g0 = 0 ∧ g1 = 0 then some gttype.gt_homref
        else if (g0 = 0 ∧ g1 > 0) ∨ (g1 = 0 ∧ g0 > 0) then some gttype.gt_het
        else if g0 > 0 ∧ g1 > 0 ∧ g0 = g1 then some gttype.gt_homalt
        else if g0 > 0 ∧ g1 > 0 ∧ g0 ≠ g1 then some gttype.gt_hetalt
        else some gttype.gt_unknown
      | _, _ => none
    else some gttype.gt_unknown
  else some gttype.gt_unknown

/-- A call with the given allele slots and slot count and nothing else. -/
def mkCall (gt : List Int) (ngt : Nat) : Call :=
  { gt := gt, ngt := ngt, phased := false, nfilter := 0, filter := [],
    bcf_hdr := 0, bcf_rec := 0 }

/-! ## Record store

`Variant.cpp` reaches the per-call records only through `bcfhelpers::getInfo*`
(declared in this repository, outside `Variant.cpp`) and htslib's
`bcf_update_info_*`.  A record is a finite map from INFO keys to typed values;
the store maps record handles to records. -/

/-- Modelled from the spec: the value of one named metadata field of a record
("typed get/set/delete of named metadata fields").  The type declaration is
not part of `Variant.cpp`. -/
inductive InfoValue where
  | int (i : Int)
  | str (s : String)
  | flag
  deriving DecidableEq, Repr

/-- Modelled from the spec: a record, as the map from field names to the
values present; `none` is an absent field. -/
abbrev Record := String → Option InfoValue

/-- Modelled from the spec: the record store, addressed by record handle.
Several calls may hold the same handle. -/
abbrev Store := Nat → Record

/-- Modelled from the spec: the reserved missing-integer sentinel
(`bcf_int32_missing`, a macro defined outside `Variant.cpp`; its value is
`INT32_MIN`). -/
def bcf_int32_missing : Int := -2147483648

/-- Replace the field `id` of the record `rec` by `v`, leaving every other
field of every record as it was. -/
def Store.put (st : Store) (rec : Nat) (id : String) (v : Option InfoValue) : Store :=
  fun r k => if r = rec ∧ k = id then v else st r k

namespace bcfhelpers

/-- Modelled from the spec: `getInfoInt(header, record, key, missing_sentinel)
-> int`, declared outside `Variant.cpp`: the integer stored under the key, or
the caller's sentinel `result` when there is none. -/
def getInfoInt (st : Store) (_hdr rec : Nat) (id : String) (result : Int) : Int :=
  match st rec id with
  | some (InfoValue.int i) => i
  | _ => result

/-- Modelled from the spec: `getInfoString(header, record, key, default) ->
string`, declared outside `Variant.cpp`: the string stored under the key, or
the caller's default when there is none. -/
def getInfoString (st : Store) (_hdr rec : Nat) (id : String) (def_result : String) : String :=
  match st rec id with
  | some (InfoValue.str s) => s
  | _ => def_result

/-- Modelled from the spec: `getInfoFlag(header, record, key) -> bool`,
declared outside `Variant.cpp`: whether the flag is set under the key. -/
def getInfoFlag (st : Store) (_hdr rec : Nat) (id : String) : Bool :=
  match st rec id with
  | some InfoValue.flag => true
  | _ => false

end bcfhelpers

/-- Modelled from the spec: `setInfoInt(header, record, key, value)`; the
source calls htslib's `bcf_update_info_int32(hdr, rec, id, &val, 1)`. -/
def bcf_update_info_int32 (st : Store) (_hdr rec : Nat) (id : String) (val : Int) : Store :=
  st.put rec id (some (InfoValue.int val))

/-- Modelled from the spec: `setInfoFlag(header, record, key, value)`; the
source calls htslib's `bcf_update_info_flag(hdr, rec, id, NULL, 1)`. -/
def bcf_update_info_flag (st : Store) (_hdr rec : Nat) (id : String) : Store :=
  st.put rec id (some InfoValue.flag)

/-- Modelled from the spec: `setInfoString(header, record, key, value)` and
`deleteInfo(header, record, key)`; the source calls htslib's
`bcf_update_info_string(hdr, rec, id, val)`, where a `NULL` value (`none`)
removes the field whatever its type. -/
def bcf_update_info_string (st : Store) (_hdr rec : Nat) (id : String)
    (val : Option String) : Store :=
  match val with
  | none => st.put rec id none
  | some s => st.put rec id (some (InfoValue.str s))

/-! ## INFO accessors of `Variants` -/

/-- The loop of `Variants::getInfoInt`, lines 196-204. -/
def getInfoInt_loop (st : Store) (id : String) : List Call → Int
  | [] => bcf_int32_missing
  | c :: cs =>
    let tmp := bcfhelpers.getInfoInt st c.bcf_hdr c.bcf_rec id bcf_int32_missing
    if tmp ≠ bcf_int32_missing then tmp else getInfoInt_loop st id cs

/-- Source: `int Variants::getInfoInt(const char * id) const`, lines 194-205. -/
def Variants.getInfoInt {RefVar : Type} (self : Variants RefVar) (st : Store)
    (id : String) : Int :=
  getInfoInt_loop st id self.calls

/-- The loop of `Variants::getInfoString`, lines 222-230. -/
def getInfoString_loop (st : Store) (id : String) : List Call → String
  | [] => ""
  | c :: cs =>
    let tmp := bcfhelpers.getInfoString st c.bcf_hdr c.bcf_rec id ""
    if tmp ≠ "" then tmp else getInfoString_loop st id cs

/-- Source: `std::string Variants::getInfoString(const char * id) const`,
lines 220-231. -/
def Variants.getInfoString {RefVar : Type} (self : Variants RefVar) (st : Store)
    (id : String) : String :=
  getInfoString_loop st id self.calls

/-- The loop of `Variants::getInfoFlag`, lines 235-242. -/
def getInfoFlag_loop (st : Store) (id : String) : List Call → Bool
  | [] => false
  | c :: cs =>
    if bcfhelpers.getInfoFlag st c.bcf_hdr c.bcf_rec id then true
    else getInfoFlag_loop st id cs

/-- Source: `bool Variants::getInfoFlag(const char * id) const`, lines 233-243. -/
def Variants.getInfoFlag {RefVar : Type} (self : Variants RefVar) (st : Store)
    (id : String) : Bool :=
  getInfoFlag_loop st id self.calls

/-- The loop of `Variants::delInfo`, lines 247-250. -/
def delInfo_loop (id : String) : List Call → Store → Store
  | [], st => st
  | c :: cs, st => delInfo_loop id cs (bcf_update_info_string st c.bcf_hdr c.bcf_rec id none)

/-- Source: `void Variants::delInfo(const char * id)`, lines 245-251.  The
records are reached through the calls, so the state changed is the store. -/
def Variants.delInfo {RefVar : Type} (self : Variants RefVar) (st : Store)
    (id : String) : Store :=
  delInfo_loop id self.calls st

/-- The loop of `Variants::setInfo(const char *, bool)`, lines 261-264. -/
def setInfo_flag_loop (id : String) : List Call → Store → Store
  | [], st => st
  | c :: cs, st => setInfo_flag_loop id cs (bcf_update_info_flag st c.bcf_hdr c.bcf_rec id)

/-- Source: `void Variants::setInfo(const char * id, bool flag)`, lines 253-266. -/
def Variants.setInfo_bool {RefVar : Type} (self : Variants RefVar) (st : Store)
    (id : String) (flag : Bool) : Store :=
  if ¬ flag then self.delInfo st id
  else setInfo_flag_loop id self.calls st

/-- The loop of `Variants::setInfo(const char *, int)`, lines 270-273. -/
def setInfo_int_loop (id : String) (val : Int) : List Call → Store → Store
  | [], st => st
  | c :: cs, st =>
    setInfo_int_loop id val cs (bcf_update_info_int32 st c.bcf_hdr c.bcf_rec id val)

/-- Source: `void Variants::setInfo(const char * id, int val)`, lines 268-274. -/
def Variants.setInfo_int {RefVar : Type} (self : Variants RefVar) (st : Store)
    (id : String) (val : Int) : Store :=
  setInfo_int_loop id val self.calls st

/-- The loop of `Variants::setInfo(const char *, const char *)`, lines 286-289. -/
def setInfo_string_loop (id : String) (val : Option String) : List Call → Store → Store
  | [], st => st
  | c :: cs, st =>
    setInfo_string_loop id val cs (bcf_update_info_string st c.bcf_hdr c.bcf_rec id val)

/-- Source: `void Variants::setInfo(const char * id, const char * val)`,
lines 284-290; a null `val` is `none`. -/
def Variants.setInfo_string {RefVar : Type} (self : Variants RefVar) (st : Store)
    (id : String) (val : Option String) : Store :=
  setInfo_string_loop id val self.calls st

/-- The loop of `Variants::getInfoFloat`, lines 209-216.  `getInfoDouble` is
`bcfhelpers::getInfoDouble`, declared outside `Variant.cpp`, applied to a
call's header and record handles and the key; `D` stands for `double`, `F` for
`float`, `isnan` for the NaN test on a `double`, `toFloat` for the cast
`(float)tmp` and `quiet_NaN` for `std::numeric_limits<float>::quiet_NaN()`. -/
def getInfoFloat_loop {D F : Type} (getInfoDouble : Nat → Nat → String → D)
    (isnan : D → Bool) (toFloat : D → F) (quiet_NaN : F) (id : String) : List Call → F
  | [] => quiet_NaN
  | c :: cs =>
    let tmp := getInfoDouble c.bcf_hdr c.bcf_rec id
    if ¬ isnan tmp then toFloat tmp
    else getInfoFloat_loop getInfoDouble isnan toFloat quiet_NaN id cs

/-- Source: `float Variants::getInfoFloat(const char * id) const`,
lines 207-218. -/
def Variants.getInfoFloat {RefVar D F : Type} (self : Variants RefVar)
    (getInfoDouble : Nat → Nat → String → D) (isnan : D → Bool) (toFloat : D → F)
    (quiet_NaN : F) (id : String) : F :=
  getInfoFloat_loop getInfoDouble isnan toFloat quiet_NaN id self.calls

/-- Following the spec's words for `delete(key)`, "remove the field from every
call's record": the field `id` is absent from every record some call refers
to, and every other field of every record is as before. -/
def spec_delete (calls : List Call) (st : Store) (id : String) : Store :=
  fun r k => if k = id ∧ r ∈ calls.map Call.bcf_rec then none else st r k

/-! ## Diagnostic rendering

The `operator<<` overloads insert text into an output stream.  Each is
embedded as the text it inserts; a read outside `gt` or `filter` makes the
result `none`.  The stream is taken in its default formatting state, in which
integers are written in decimal. -/

/-- Text that `o << i` inserts for an `int` or `int64_t`: the decimal digits,
preceded by `-` when negative. -/
def showInt (i : Int) : String := toString i

/-- The value a 64-bit two's complement register holds for the integer `x`:
the representative of `x` modulo `2 ^ 64` in `[-2 ^ 63, 2 ^ 63)`. -/
def wrap_int64 (x : Int) : Int := (x + 2 ^ 63) % 2 ^ 64 - 2 ^ 63

/-- Addition of two `int64_t` values as the machine performs it. -/
def int64_add (a b : Int) : Int := wrap_int64 (a + b)

/-- Subtraction of two `int64_t` values as the machine performs it. -/
def int64_sub (a b : Int) : Int := wrap_int64 (a - b)

/-- Source: `operator<<(std::ostream&, gttype const&)`, lines 91-117.  The
enumerators' numeric values are declared outside `Variant.cpp` and enter as
`code`; `v` is the value switched on, which a C++ enum object may hold even
when it is no enumerator's value.  The case labels of a `switch` are pairwise
distinct, so testing them in source order is the same as the jump;
`case gt_unknown:` shares the `default:` branch. -/
def show_gttype (code : gttype → Int) (v : Int) : String :=
  if v = code gttype.gt_haploid then "gt_haploid"
  else if v = code gttype.gt_homref then "gt_homref"
  else if v = code gttype.gt_homalt then "gt_homalt"
  else if v = code gttype.gt_het then "gt_het"
  else if v = code gttype.gt_hetalt then "gt_hetalt"
  else "gt_unknown"

/-- The loop shape of both loops of `operator<<(Call)`:
`for (i = 0; i < n; ++i) { if (i > 0) o << sep; o << xs[i]; }`.
`sep_loop sep xs k i` is the text of the `k` iterations from index `i` on. -/
def sep_loop (sep : String) (xs : List String) : Nat → Nat → Option String
  | 0, _ => some ""
  | k + 1, i =>
    match xs[i]? with
    | none => none
    | some x =>
      match sep_loop sep xs k (i + 1) with
      | none => none
      | some rest => some ((if i > 0 then sep else "") ++ x ++ rest)

/-- The allele loop of `operator<<(Call)`, lines 125-132: slot `i` is written
as `o << v.gt[i]`, after `|` or `/` when `i > 0`. -/
def Call.gt_text (v : Call) : Option String :=
  sep_loop (if v.phased then "|" else "/") (v.gt.map showInt) v.ngt 0

/-- The filter loop of `operator<<(Call)`, lines 137-144. -/
def Call.filter_text (v : Call) : Option String :=
  sep_loop "," v.filter v.nfilter 0

/-- Source: `operator<<(std::ostream&, Call const&)`, lines 119-148. -/
def Call.render (v : Call) : Option String :=
  match v.gt_text with
  | none => none
  | some gts =>
    if v.nfilter > 0 then
      match v.filter_text with
      | none => none
      | some fs => some ((if v.ngt = 0 then "." else "") ++ gts ++ " " ++ fs)
    else some ((if v.ngt = 0 then "." else "") ++ gts)

/-- The loop over `v.variation` of `operator<<(Variants)`, lines 154-157;
`showRefVar` is the text `o << rv` inserts, defined outside `Variant.cpp`. -/
def variation_text {RefVar : Type} (showRefVar : RefVar → String) : List RefVar → String
  | [] => ""
  | rv :: rest => " " ++ showRefVar rv ++ variation_text showRefVar rest

/-- The loop over `v.calls` of `operator<<(Variants)`, lines 159-162. -/
def calls_text : List Call → Option String
  | [] => some ""
  | c :: cs =>
    match c.render with
    | none => none
    | some t =>
      match calls_text cs with
      | none => none
      | some rest => some (" " ++ t ++ rest)

/-- The search loop of `operator<<(Variants)`, lines 164-172, which stops at
the first non-empty entry. -/
def any_ambiguous_loop : List (List Int) → Bool
  | [] => false
  | x :: xs => if x ≠ [] then true else any_ambiguous_loop xs

/-- The inner loop of the ambig block, lines 179-182: `o << y << " "` for
every `y`. -/
def ambig_inner : List Int → String
  | [] => ""
  | y :: ys => showInt y ++ " " ++ ambig_inner ys

/-- The outer loop of the ambig block, lines 177-184. -/
def ambig_outer : List (List Int) → String
  | [] => ""
  | x :: xs => ambig_inner x ++ ";" ++ ambig_outer xs

/-- The ambig block, lines 176-185. -/
def ambig_text (al : List (List Int)) : String :=
  "ambig[" ++ ambig_outer al ++ "]"

/-- Lines 152-162 of `operator<<(Variants)`: the locus, the variations and the
calls.  `pos` and `len` are `int64_t`, so `(v.pos + v.len - 1)` is evaluated
left to right in 64-bit signed arithmetic: first the sum, then the
subtraction of 1, each wrapping around. -/
def Variants.head_text {RefVar : Type} (showRefVar : RefVar → String)
    (v : Variants RefVar) : Option String :=
  match calls_text v.calls with
  | none => none
  | some cs =>
    some (v.chr ++ ":" ++ showInt v.pos ++ "-"
      ++ showInt (int64_sub (int64_add v.pos v.len) 1)
      ++ variation_text showRefVar v.variation ++ cs)

/-- Source: `operator<<(std::ostream&, Variants const&)`, lines 150-188. -/
def Variants.render {RefVar : Type} (showRefVar : RefVar → String)
    (v : Variants RefVar) : Option String :=
  match v.head_text showRefVar with
  | none => none
  | some h =>
    if any_ambiguous_loop v.ambiguous_alleles then some (h ++ ambig_text v.ambiguous_alleles)
    else some h

/-! ## Identifiers -/

/-- Source: `uint64_t Variants::MAX_VID = 0;` and
`Variants::Variants() : id(MAX_VID++) {}`, lines 190-191.  Given the counter,
the result is the new instance's `id` and the counter afterwards; the
increment of a `uint64_t` wraps at `2 ^ 64`.  The member `id` has the
counter's type. -/
def Variants.ctor (MAX_VID : Nat) : Nat × Nat :=
  (MAX_VID, (MAX_VID + 1) % 2 ^ 64)

/-- Constructing `n` instances one after another from counter value `c`: the
ids in construction order and the counter afterwards. -/
def construct_many : Nat → Nat → List Nat × Nat
  | 0, c => ([], c)
  | n + 1, c =>
    let r := construct_many n (Variants.ctor c).2
    ((Variants.ctor c).1 :: r.1, r.2)

/-! ## The claims' wording of the renderings -/

/-- Following the spec's words for the genotype part of a call: `.` when
`ngt == 0`, otherwise the `ngt` allele indices in decimal joined by `|`
(phased) or `/` (unphased). -/
def spec_genotype (c : Call) : String :=
  if c.ngt = 0 then "."
  else String.intercalate (if c.phased then "|" else "/") ((c.gt.take c.ngt).map showInt)

/-- Following the spec's words for a locus without ambig block:
`chr:pos-(pos+len-1)`, then a space and the rendering for each variation, then
a space and the rendering for each call; `texts` are the calls' renderings.
The range end is the value of the `int64_t` expression `pos + len - 1`. -/
def spec_locus {RefVar : Type} (showRefVar : RefVar → String) (v : Variants RefVar)
    (texts : List String) : String :=
  v.chr ++ ":" ++ showInt v.pos ++ "-" ++ showInt (int64_sub (int64_add v.pos v.len) 1)
    ++ String.join (v.variation.map (fun rv => " " ++ showRefVar rv))
    ++ String.join (texts.map (fun t => " " ++ t))

/-- Following the wording under test for the ambig block: `ambig[`, then for
each call its indices separated from one another by single spaces and
terminated by `;`, then `]`. -/
def spec_ambig_block (al : List (List Int)) : String :=
  "ambig[" ++ String.join (al.map (fun x => String.intercalate " " (x.map showInt) ++ ";"))
    ++ "]"

/-! ## Concrete states used as examples -/

/-- A call without alleles or filters that refers to record `rec`. -/
def callOn (rec : Nat) : Call :=
  { gt := [], ngt := 0, phased := false, nfilter := 0, filter := [],
    bcf_hdr := 0, bcf_rec := rec }

/-- A locus `1:100` of length 1 with the given calls and nothing else. -/
def locus (calls : List Call) : Variants Unit :=
  { id := 0, chr := "1", pos := 100, len := 1, variation := [], calls := calls,
    ambiguous_alleles := calls.map (fun _ => []) }

/-- A store in which record 1 carries `DP = 7`, `SRC = "x"` and the flag `DB`,
and every other record is empty. -/
def store7 : Store :=
  fun r k =>
    if r = 1 ∧ k = "DP" then some (InfoValue.int 7)
    else if r = 1 ∧ k = "SRC" then some (InfoValue.str "x")
    else if r = 1 ∧ k = "DB" then some InfoValue.flag
    else none

/-- A call with the given alleles (all in use), phasing and filter tags (all
in use). -/
def callWith (gt : List Int) (phased : Bool) (filter : List String) : Call :=
  { gt := gt, ngt := gt.length, phased := phased, nfilter := filter.length,
    filter := filter, bcf_hdr := 0, bcf_rec := 0 }

/-- The locus `1:100` of length 1 with two calls without alleles and the
ambiguous-allele sets `[[1, 2], [3]]`. -/
def locusAmbig : Variants Unit :=
  { id := 0, chr := "1", pos := 100, len := 1, variation := [],
    calls := [callOn 0, callOn 1], ambiguous_alleles := [[1, 2], [3]] }

/-- The locus `1:9223372036854775807` of length 2, without variations, calls
and ambiguous-allele sets: `pos` is the largest `int64_t` value. -/
def locusEdge : Variants Unit :=
  { id := 0, chr := "1", pos := 2 ^ 63 - 1, len := 2, variation := [], calls := [],
    ambiguous_alleles := [] }

/-- A stand-in for the floating-point reads of the examples: `none` plays NaN,
`some q` a number; record 1 carries `AF = 5` and `QD = 3`, record 2 carries
`QD = 4`, every other read is NaN. -/
def exampleDouble : Nat → Nat → String → Option Int :=
  fun _ rec k =>
    if rec = 1 ∧ k = "AF" then some 5
    else if rec = 1 ∧ k = "QD" then some 3
    else if rec = 2 ∧ k = "QD" then some 4
    else none

/-- One numbering of the enumerators, in the order of the `inductive` above
from 0, used where an example needs a concrete numbering. -/
def enum_code : gttype → Int
  | gttype.gt_homref => 0
  | gttype.gt_haploid => 1
  | gttype.gt_het => 2
  | gttype.gt_homalt => 3
  | gttype.gt_hetalt => 4
  | gttype.gt_unknown => 5

/-! ## Genotype classifier: theorems -/

/-- The `ngt == 2` branch of the classifier as a decision list over the two
slots read. -/
theorem getGTType_of_ngt_two (c : Call) (a b : Int) (hn : c.ngt = 2)
    (h0 : c.gt[0]? = some a) (h1 : c.gt[1]? = some b) :
    getGTType c =
      if a = 0 ∧ b = 0 then some gttype.gt_homref
      else if (a = 0 ∧ b > 0) ∨ (b = 0 ∧ a > 0) then some gttype.gt_het
      else if a > 0 ∧ b > 0 ∧ a = b then some gttype.gt_homalt
      else if a > 0 ∧ b > 0 ∧ a ≠ b then some gttype.gt_hetalt
      else some gttype.gt_unknown := by
  simp only [getGTType, hn, h0, h1]
  rfl

/-- The `ngt == 1` branch of the classifier as a decision list over the slot
read. -/
theorem getGTType_of_ngt_one (c : Call) (a : Int) (hn : c.ngt = 1)
    (h0 : c.gt[0]? = some a) :
    getGTType c =
      if a > 0 then some gttype.gt_haploid
      else if a = 0 then some gttype.gt_homref
      else some gttype.gt_unknown := by
  simp only [getGTType, hn, h0]
  rfl

/-- Outside `ngt == 1` and `ngt == 2` the classifier reads nothing and falls
through to `gt_unknown`. -/
theorem getGTType_of_ngt_other (c : Call) (h1 : c.ngt ≠ 1) (h2 : c.ngt ≠ 2) :
    getGTType c = some gttype.gt_unknown := by
  unfold getGTType
  by_cases h0 : c.ngt > 0
  · rw [if_pos h0, if_neg h1, if_neg h2]
  · rw [if_neg h0]

/-- Every value of `gttype` is one of the six categories. -/
theorem gttype_cases (t : gttype) :
    t = gttype.gt_unknown ∨ t = gttype.gt_haploid ∨ t = gttype.gt_homref ∨
    t = gttype.gt_homalt ∨ t = gttype.gt_het ∨ t = gttype.gt_hetalt := by
  cases t <;> simp

/-- C1: for a call with `ngt == 2` whose first two allele slots hold `a` and
`b`, the classifier returns `gt_homref` when both are 0, `gt_het` when one is 0
and the other positive, `gt_homalt` when both are positive and equal,
`gt_hetalt` when both are positive and different, and `gt_unknown` in every
other case, that is when `a` or `b` is negative. -/
theorem C1_getGTType_diploid (c : Call) (a b : Int) (hn : c.ngt = 2)
    (h0 : c.gt[0]? = some a) (h1 : c.gt[1]? = some b) :
    (a = 0 ∧ b = 0 → getGTType c = some gttype.gt_homref) ∧
    ((a = 0 ∧ b > 0) ∨ (b = 0 ∧ a > 0) → getGTType c = some gttype.gt_het) ∧
    (a > 0 ∧ b > 0 ∧ a = b → getGTType c = some gttype.gt_homalt) ∧
    (a > 0 ∧ b > 0 ∧ a ≠ b → getGTType c = some gttype.gt_hetalt) ∧
    (a < 0 ∨ b < 0 → getGTType c = some gttype.gt_unknown) := by
  rw [getGTType_of_ngt_two c a b hn h0 h1]
  refine ⟨?_, ?_, ?_, ?_, ?_⟩
  · intro h
    simp [h]
  · intro h
    have hne : ¬ (a = 0 ∧ b = 0) := by omega
    rw [if_neg hne, if_pos h]
  · rintro ⟨ha, hb, hab⟩
    have n1 : ¬ (a = 0 ∧ b = 0) := by omega
    have n2 : ¬ ((a = 0 ∧ b > 0) ∨ (b = 0 ∧ a > 0)) := by omega
    rw [if_neg n1, if_neg n2, if_pos ⟨ha, hb, hab⟩]
  · rintro ⟨ha, hb, hab⟩
    have n1 : ¬ (a = 0 ∧ b = 0) := by omega
    have n2 : ¬ ((a = 0 ∧ b > 0) ∨ (b = 0 ∧ a > 0)) := by omega
    have n3 : ¬ (a > 0 ∧ b > 0 ∧ a = b) := by omega
    rw [if_neg n1, if_neg n2, if_neg n3, if_pos ⟨ha, hb, hab⟩]
  · intro h
    have n1 : ¬ (a = 0 ∧ b = 0) := by omega
    have n2 : ¬ ((a = 0 ∧ b > 0) ∨ (b = 0 ∧ a > 0)) := by omega
    have n3 : ¬ (a > 0 ∧ b > 0 ∧ a = b) := by omega
    have n4 : ¬ (a > 0 ∧ b > 0 ∧ a ≠ b) := by omega
    rw [if_neg n1, if_neg n2, if_neg n3, if_neg n4]

/-- C1, at the listed inputs: `{0,0}` is `gt_homref`, `{0,3}` and `{3,0}` are
`gt_het`, `{2,2}` is `gt_homalt`, `{2,3}` is `gt_hetalt` and `{0,-1}` is
`gt_unknown`. -/
theorem C1_getGTType_diploid_witness :
    getGTType (mkCall [0, 0] 2) = some gttype.gt_homref ∧
    getGTType (mkCall [0, 3] 2) = some gttype.gt_het ∧
    getGTType (mkCall [3, 0] 2) = some gttype.gt_het ∧
    getGTType (mkCall [2, 2] 2) = some gttype.gt_homalt ∧
    getGTType (mkCall [2, 3] 2) = some gttype.gt_hetalt ∧
    getGTType (mkCall [0, -1] 2) = some gttype.gt_unknown :=
  ⟨(C1_getGTType_diploid (mkCall [0, 0] 2) 0 0 rfl rfl rfl).1 (by decide),
   (C1_getGTType_diploid (mkCall [0, 3] 2) 0 3 rfl rfl rfl).2.1 (by decide),
   (C1_getGTType_diploid (mkCall [3, 0] 2) 3 0 rfl rfl rfl).2.1 (by decide),
   (C1_getGTType_diploid (mkCall [2, 2] 2) 2 2 rfl rfl rfl).2.2.1 (by decide),
   (C1_getGTType_diploid (mkCall [2, 3] 2) 2 3 rfl rfl rfl).2.2.2.1 (by decide),
   (C1_getGTType_diploid (mkCall [0, -1] 2) 0 (-1) rfl rfl (by decide)).2.2.2.2 (by decide)⟩

/-- C2: for a call with `ngt == 1` whose first allele slot holds `a`, the
classifier returns `gt_haploid` when `a > 0`, `gt_homref` when `a == 0` and
`gt_unknown` when `a < 0`. -/
theorem C2_getGTType_haploid (c : Call) (a : Int) (hn : c.ngt = 1)
    (h0 : c.gt[0]? = some a) :
    (a > 0 → getGTType c = some gttype.gt_haploid) ∧
    (a = 0 → getGTType c = some gttype.gt_homref) ∧
    (a < 0 → getGTType c = some gttype.gt_unknown) := by
  rw [getGTType_of_ngt_one c a hn h0]
  refine ⟨?_, ?_, ?_⟩
  · intro h
    rw [if_pos h]
  · intro h
    subst h
    rfl
  · intro h
    have h1 : ¬ a > 0 := by omega
    have h2 : ¬ a = 0 := by omega
    rw [if_neg h1, if_neg h2]

/-- C2, at the listed inputs: allele 5 is `gt_haploid`, allele 0 is
`gt_homref` and allele -1 is `gt_unknown`. -/
theorem C2_getGTType_haploid_witness :
    getGTType (mkCall [5] 1) = some gttype.gt_haploid ∧
    getGTType (mkCall [0] 1) = some gttype.gt_homref ∧
    getGTType (mkCall [-1] 1) = some gttype.gt_unknown :=
  ⟨(C2_getGTType_haploid (mkCall [5] 1) 5 rfl rfl).1 (by decide),
   (C2_getGTType_haploid (mkCall [0] 1) 0 rfl rfl).2.1 rfl,
   (C2_getGTType_haploid (mkCall [-1] 1) (-1) rfl (by decide)).2.2 (by decide)⟩

/-- C3: for a call with `ngt == 0` and for a call with `ngt > 2` the
classifier returns `gt_unknown`, whatever the allele slots hold (and however
many there are). -/
theorem C3_getGTType_other_ploidy (c : Call) (hn : c.ngt = 0 ∨ c.ngt > 2) :
    getGTType c = some gttype.gt_unknown := by
  exact getGTType_of_ngt_other c (by omega) (by omega)

/-- C3, at ploidy 0 with no alleles and at ploidy 3 with alleles `1, 2, 3`. -/
theorem C3_getGTType_other_ploidy_witness :
    getGTType (mkCall [] 0) = some gttype.gt_unknown ∧
    getGTType (mkCall [1, 2, 3] 3) = some gttype.gt_unknown :=
  ⟨C3_getGTType_other_ploidy (mkCall [] 0) (Or.inl rfl),
   C3_getGTType_other_ploidy (mkCall [1, 2, 3] 3) (Or.inr (by decide))⟩

/-- C4: for a call whose allele sequence has as many entries as its ploidy,
every slot the classifier reads is present (`gt[0]` when `ngt == 1`, `gt[0]`
and `gt[1]` when `ngt == 2`), the classifier returns a result (the
out-of-range outcome `none` does not occur), and the result is one of the six
categories. -/
theorem C4_getGTType_total (c : Call) (hlen : c.gt.length = c.ngt) :
    (c.ngt = 1 → (c.gt[0]?).isSome = true) ∧
    (c.ngt = 2 → (c.gt[0]?).isSome = true ∧ (c.gt[1]?).isSome = true) ∧
    getGTType c ≠ none ∧
    ∃ t, getGTType c = some t ∧
      (t = gttype.gt_unknown ∨ t = gttype.gt_haploid ∨ t = gttype.gt_homref ∨
       t = gttype.gt_homalt ∨ t = gttype.gt_het ∨ t = gttype.gt_hetalt) := by
  have r1 : c.ngt = 1 → (c.gt[0]?).isSome = true := by
    intro h
    have hl : 0 < c.gt.length := by omega
    simp [List.getElem?_eq_getElem hl]
  have r2 : c.ngt = 2 → (c.gt[0]?).isSome = true ∧ (c.gt[1]?).isSome = true := by
    intro h
    have hl0 : 0 < c.gt.length := by omega
    have hl1 : 1 < c.gt.length := by omega
    simp [List.getElem?_eq_getElem hl0, List.getElem?_eq_getElem hl1]
  have hex : ∃ t, getGTType c = some t := by
    by_cases h1 : c.ngt = 1
    · obtain ⟨a, ha⟩ := Option.isSome_iff_exists.mp (r1 h1)
      rw [getGTType_of_ngt_one c a h1 ha]
      split_ifs <;> exact ⟨_, rfl⟩
    · by_cases h2 : c.ngt = 2
      · obtain ⟨a, ha⟩ := Option.isSome_iff_exists.mp (r2 h2).1
        obtain ⟨b, hb⟩ := Option.isSome_iff_exists.mp (r2 h2).2
        rw [getGTType_of_ngt_two c a b h2 ha hb]
        split_ifs <;> exact ⟨_, rfl⟩
      · exact ⟨_, getGTType_of_ngt_other c h1 h2⟩
  obtain ⟨t, ht⟩ := hex
  exact ⟨r1, r2, by simp [ht], t, ht, gttype_cases t⟩

/-- C4, at a diploid call with alleles `1, 2`: both slots are present and the
classifier returns a result.  A call that breaks the length invariant, ploidy 2
with a single slot, is where the out-of-range outcome does occur. -/
theorem C4_getGTType_total_witness :
    (mkCall [1, 2] 2).gt.length = (mkCall [1, 2] 2).ngt ∧
    getGTType (mkCall [1, 2] 2) ≠ none ∧
    getGTType (mkCall [5] 2) = none :=
  ⟨rfl, (C4_getGTType_total (mkCall [1, 2] 2) rfl).2.2.1, by decide⟩

/-! ## INFO accessors: lemmas on the loops -/

/-- The integer read of `Variants::getInfoInt` skips calls whose value is the
sentinel and stops at the first call whose value is not. -/
theorem getInfoInt_loop_first (st : Store) (id : String) (pre : List Call) (c : Call)
    (post : List Call)
    (hpre : ∀ p ∈ pre,
      bcfhelpers.getInfoInt st p.bcf_hdr p.bcf_rec id bcf_int32_missing = bcf_int32_missing)
    (hc : bcfhelpers.getInfoInt st c.bcf_hdr c.bcf_rec id bcf_int32_missing ≠ bcf_int32_missing) :
    getInfoInt_loop st id (pre ++ c :: post) =
      bcfhelpers.getInfoInt st c.bcf_hdr c.bcf_rec id bcf_int32_missing := by
  induction pre with
  | nil => simp only [List.nil_append, getInfoInt_loop, if_pos hc]
  | cons p ps ih =>
    have hp := hpre p (List.mem_cons_self p ps)
    have hps := fun q hq => hpre q (List.mem_cons_of_mem p hq)
    simp only [List.cons_append, getInfoInt_loop, hp, ne_eq, not_true_eq_false, if_false]
    exact ih hps

/-- When every call's value is the sentinel, the loop of
`Variants::getInfoInt` runs to its end and returns the sentinel. -/
theorem getInfoInt_loop_none (st : Store) (id : String) (cs : List Call)
    (hall : ∀ p ∈ cs,
      bcfhelpers.getInfoInt st p.bcf_hdr p.bcf_rec id bcf_int32_missing = bcf_int32_missing) :
    getInfoInt_loop st id cs = bcf_int32_missing := by
  induction cs with
  | nil => rfl
  | cons p ps ih =>
    have hp := hall p (List.mem_cons_self p ps)
    have hps := fun q hq => hall q (List.mem_cons_of_mem p hq)
    simp only [getInfoInt_loop, hp, ne_eq, not_true_eq_false, if_false]
    exact ih hps

/-- The string read of `Variants::getInfoString` skips calls whose value is
empty and stops at the first call whose value is not. -/
theorem getInfoString_loop_first (st : Store) (id : String) (pre : List Call) (c : Call)
    (post : List Call)
    (hpre : ∀ p ∈ pre, bcfhelpers.getInfoString st p.bcf_hdr p.bcf_rec id "" = "")
    (hc : bcfhelpers.getInfoString st c.bcf_hdr c.bcf_rec id "" ≠ "") :
    getInfoString_loop st id (pre ++ c :: post) =
      bcfhelpers.getInfoString st c.bcf_hdr c.bcf_rec id "" := by
  induction pre with
  | nil => simp only [List.nil_append, getInfoString_loop, if_pos hc]
  | cons p ps ih =>
    have hp := hpre p (List.mem_cons_self p ps)
    have hps := fun q hq => hpre q (List.mem_cons_of_mem p hq)
    simp only [List.cons_append, getInfoString_loop, hp, ne_eq, not_true_eq_false, if_false]
    exact ih hps

/-- When every call's value is empty, the loop of `Variants::getInfoString`
runs to its end and returns the empty string. -/
theorem getInfoString_loop_none (st : Store) (id : String) (cs : List Call)
    (hall : ∀ p ∈ cs, bcfhelpers.getInfoString st p.bcf_hdr p.bcf_rec id "" = "") :
    getInfoString_loop st id cs = "" := by
  induction cs with
  | nil => rfl
  | cons p ps ih =>
    have hp := hall p (List.mem_cons_self p ps)
    have hps := fun q hq => hall q (List.mem_cons_of_mem p hq)
    simp only [getInfoString_loop, hp, ne_eq, not_true_eq_false, if_false]
    exact ih hps

/-- The loop of `Variants::getInfoFlag` returns true exactly when some call's
record has the flag. -/
theorem getInfoFlag_loop_iff (st : Store) (id : String) (cs : List Call) :
    getInfoFlag_loop st id cs = true ↔
      ∃ c ∈ cs, bcfhelpers.getInfoFlag st c.bcf_hdr c.bcf_rec id = true := by
  induction cs with
  | nil => simp [getInfoFlag_loop]
  | cons p ps ih =>
    by_cases hp : bcfhelpers.getInfoFlag st p.bcf_hdr p.bcf_rec id = true
    · simp [getInfoFlag_loop, hp]
    · simp [getInfoFlag_loop, hp, ih]

/-- The loop of `Variants::delInfo` leaves the store that the spec's
`delete(key)` describes. -/
theorem delInfo_loop_eq_spec (id : String) (cs : List Call) (st : Store) :
    delInfo_loop id cs st = spec_delete cs st id := by
  induction cs generalizing st with
  | nil =>
    funext r k
    simp [delInfo_loop, spec_delete]
  | cons c cs ih =>
    funext r k
    simp only [delInfo_loop, ih, spec_delete, bcf_update_info_string, Store.put,
      List.map_cons, List.mem_cons]
    by_cases hk : k = id
    · by_cases hr : r = c.bcf_rec
      · simp [hk, hr]
      · simp [hk, hr]
    · simp [hk]

/-- The loop of `Variants::setInfo(const char *, int)` stores `val` under `id`
in every record some call refers to and changes nothing else. -/
theorem setInfo_int_loop_apply (id : String) (val : Int) (cs : List Call) (st : Store)
    (r : Nat) (k : String) :
    setInfo_int_loop id val cs st r k =
      if k = id ∧ r ∈ cs.map Call.bcf_rec then some (InfoValue.int val) else st r k := by
  induction cs generalizing st with
  | nil => simp [setInfo_int_loop]
  | cons c cs ih =>
    simp only [setInfo_int_loop, ih, bcf_update_info_int32, Store.put,
      List.map_cons, List.mem_cons]
    by_cases hk : k = id
    · by_cases hr : r = c.bcf_rec
      · simp [hk, hr]
      · simp [hk, hr]
    · simp [hk]

/-! ## INFO accessors: theorems -/

/-- C5: `getInfoInt` returns the value of the first call, in stored order,
whose record's integer value for the key is not the missing-integer sentinel
(every call before it reads as the sentinel), and returns the sentinel when no
call has such a value, in particular when there are no calls. -/
theorem C5_getInfoInt_first_non_missing {RefVar : Type} (v : Variants RefVar)
    (st : Store) (id : String) :
    (∀ (pre : List Call) (c : Call) (post : List Call),
      v.calls = pre ++ c :: post →
      (∀ p ∈ pre,
        bcfhelpers.getInfoInt st p.bcf_hdr p.bcf_rec id bcf_int32_missing = bcf_int32_missing) →
      bcfhelpers.getInfoInt st c.bcf_hdr c.bcf_rec id bcf_int32_missing ≠ bcf_int32_missing →
      v.getInfoInt st id =
        bcfhelpers.getInfoInt st c.bcf_hdr c.bcf_rec id bcf_int32_missing) ∧
    ((∀ c ∈ v.calls,
        bcfhelpers.getInfoInt st c.bcf_hdr c.bcf_rec id bcf_int32_missing = bcf_int32_missing) →
      v.getInfoInt st id = bcf_int32_missing) ∧
    (v.calls = [] → v.getInfoInt st id = bcf_int32_missing) := by
  refine ⟨?_, ?_, ?_⟩
  · intro pre c post hsplit hpre hc
    unfold Variants.getInfoInt
    rw [hsplit]
    exact getInfoInt_loop_first st id pre c post hpre hc
  · intro hall
    exact getInfoInt_loop_none st id v.calls hall
  · intro hnil
    unfold Variants.getInfoInt
    rw [hnil]
    rfl

/-- C5, at calls `[A, B]` where A's `DP` is missing and B's is 7: the result
is 7. -/
theorem C5_getInfoInt_first_non_missing_witness :
    bcfhelpers.getInfoInt store7 0 0 "DP" bcf_int32_missing = bcf_int32_missing ∧
    bcfhelpers.getInfoInt store7 0 1 "DP" bcf_int32_missing = 7 ∧
    (locus [callOn 0, callOn 1]).getInfoInt store7 "DP" = 7 :=
  ⟨by decide, by decide,
   ((C5_getInfoInt_first_non_missing (locus [callOn 0, callOn 1]) store7 "DP").1
      [callOn 0] (callOn 1) [] rfl (by decide) (by decide)).trans (by decide)⟩

/-- C6: after `setInfo(key, v)` with an integer `v`, the integer read of the
key on every call's record gives `v`, whatever it gave before; and when there
is at least one call and `v` is not the missing-integer sentinel,
`getInfoInt(key)` afterwards returns `v`. -/
theorem C6_setInfo_int_broadcast {RefVar : Type} (v : Variants RefVar)
    (st : Store) (id : String) (val : Int) :
    (∀ c ∈ v.calls,
      bcfhelpers.getInfoInt (v.setInfo_int st id val) c.bcf_hdr c.bcf_rec id
        bcf_int32_missing = val) ∧
    (v.calls ≠ [] → val ≠ bcf_int32_missing →
      v.getInfoInt (v.setInfo_int st id val) id = val) := by
  have hread : ∀ c ∈ v.calls,
      bcfhelpers.getInfoInt (v.setInfo_int st id val) c.bcf_hdr c.bcf_rec id
        bcf_int32_missing = val := by
    intro c hc
    have hmem : c.bcf_rec ∈ v.calls.map Call.bcf_rec := List.mem_map_of_mem Call.bcf_rec hc
    simp only [bcfhelpers.getInfoInt, Variants.setInfo_int, setInfo_int_loop_apply,
      hmem, and_self, if_true]
  refine ⟨hread, ?_⟩
  intro hne hval
  obtain ⟨c, cs, hcs⟩ := List.exists_cons_of_ne_nil hne
  have hc : c ∈ v.calls := by
    rw [hcs]
    exact List.mem_cons_self c cs
  have hrc := hread c hc
  have h := getInfoInt_loop_first (v.setInfo_int st id val) id [] c cs
    (fun p hp => absurd hp (List.not_mem_nil p)) (by rw [hrc]; exact hval)
  unfold Variants.getInfoInt
  rw [hcs]
  rw [List.nil_append] at h
  rw [h, hrc]

/-- C6, at calls `[A, B]` where A's `DP` is missing and B's is 7: after
`setInfo("DP", 9)` both A and B report 9 and `getInfoInt("DP")` returns 9. -/
theorem C6_setInfo_int_broadcast_witness :
    bcfhelpers.getInfoInt ((locus [callOn 0, callOn 1]).setInfo_int store7 "DP" 9)
      0 0 "DP" bcf_int32_missing = 9 ∧
    bcfhelpers.getInfoInt ((locus [callOn 0, callOn 1]).setInfo_int store7 "DP" 9)
      0 1 "DP" bcf_int32_missing = 9 ∧
    (locus [callOn 0, callOn 1]).getInfoInt
      ((locus [callOn 0, callOn 1]).setInfo_int store7 "DP" 9) "DP" = 9 :=
  ⟨(C6_setInfo_int_broadcast (locus [callOn 0, callOn 1]) store7 "DP" 9).1
      (callOn 0) (by decide),
   (C6_setInfo_int_broadcast (locus [callOn 0, callOn 1]) store7 "DP" 9).1
      (callOn 1) (by decide),
   (C6_setInfo_int_broadcast (locus [callOn 0, callOn 1]) store7 "DP" 9).2
      (by decide) (by decide)⟩

/-- C7: whatever the records held before, after `setInfo(key, false)` the flag
read of the key is false on every call's record and `getInfoFlag(key)` returns
false. -/
theorem C7_setInfo_false_clears_flag {RefVar : Type} (v : Variants RefVar)
    (st : Store) (id : String) :
    (∀ c ∈ v.calls,
      bcfhelpers.getInfoFlag (v.setInfo_bool st id false) c.bcf_hdr c.bcf_rec id = false) ∧
    v.getInfoFlag (v.setInfo_bool st id false) id = false := by
  have hread : ∀ c ∈ v.calls,
      bcfhelpers.getInfoFlag (v.setInfo_bool st id false) c.bcf_hdr c.bcf_rec id = false := by
    intro c hc
    have hmem : c.bcf_rec ∈ v.calls.map Call.bcf_rec := List.mem_map_of_mem Call.bcf_rec hc
    simp [bcfhelpers.getInfoFlag, Variants.setInfo_bool, Variants.delInfo,
      delInfo_loop_eq_spec, spec_delete, hmem]
  refine ⟨hread, ?_⟩
  cases hflag : v.getInfoFlag (v.setInfo_bool st id false) id with
  | false => rfl
  | true =>
    obtain ⟨c, hc, hset⟩ := (getInfoFlag_loop_iff _ id v.calls).mp hflag
    rw [hread c hc] at hset
    exact absurd hset (by decide)

/-- C7, at calls `[A, B]` where B's record carries the flag `DB`: the flag is
set before `setInfo("DB", false)` and read as false on both records and by
`getInfoFlag` after it. -/
theorem C7_setInfo_false_clears_flag_witness :
    (locus [callOn 0, callOn 1]).getInfoFlag store7 "DB" = true ∧
    bcfhelpers.getInfoFlag ((locus [callOn 0, callOn 1]).setInfo_bool store7 "DB" false)
      0 1 "DB" = false ∧
    (locus [callOn 0, callOn 1]).getInfoFlag
      ((locus [callOn 0, callOn 1]).setInfo_bool store7 "DB" false) "DB" = false :=
  ⟨by decide,
   (C7_setInfo_false_clears_flag (locus [callOn 0, callOn 1]) store7 "DB").1
      (callOn 1) (by decide),
   (C7_setInfo_false_clears_flag (locus [callOn 0, callOn 1]) store7 "DB").2⟩

/-- C8: `setInfo(key, false)` leaves exactly the state `delInfo(key)` leaves;
that state is the one the spec's `delete(key)` describes: the field is absent
from every call's record, and every other field of every record (and every
record no call refers to) is as before. -/
theorem C8_setInfo_false_eq_delInfo {RefVar : Type} (v : Variants RefVar)
    (st : Store) (id : String) :
    v.setInfo_bool st id false = v.delInfo st id ∧
    v.delInfo st id = spec_delete v.calls st id ∧
    (∀ c ∈ v.calls, v.setInfo_bool st id false c.bcf_rec id = none) ∧
    (∀ (r : Nat) (k : String), k ≠ id ∨ r ∉ v.calls.map Call.bcf_rec →
      v.setInfo_bool st id false r k = st r k) := by
  have heq : v.setInfo_bool st id false = v.delInfo st id := by
    simp [Variants.setInfo_bool]
  have hspec : v.delInfo st id = spec_delete v.calls st id :=
    delInfo_loop_eq_spec id v.calls st
  refine ⟨heq, hspec, ?_, ?_⟩
  · intro c hc
    have hmem : c.bcf_rec ∈ v.calls.map Call.bcf_rec := List.mem_map_of_mem Call.bcf_rec hc
    rw [heq, hspec]
    simp only [spec_delete, hmem, and_self, if_true]
  · intro r k h
    have hn : ¬ (k = id ∧ r ∈ v.calls.map Call.bcf_rec) := by
      rintro ⟨hk, hr⟩
      rcases h with h | h
      · exact h hk
      · exact h hr
    rw [heq, hspec]
    simp only [spec_delete, if_neg hn]

/-- C8, at calls `[A, B]` where B's record carries `DB` and `DP`: after
`setInfo("DB", false)` the field `DB` is gone from B's record and `DP` is
still 7. -/
theorem C8_setInfo_false_eq_delInfo_witness :
    store7 1 "DB" = some InfoValue.flag ∧
    (locus [callOn 0, callOn 1]).setInfo_bool store7 "DB" false 1 "DB" = none ∧
    (locus [callOn 0, callOn 1]).setInfo_bool store7 "DB" false 1 "DP"
      = some (InfoValue.int 7) :=
  ⟨by decide,
   (C8_setInfo_false_eq_delInfo (locus [callOn 0, callOn 1]) store7 "DB").2.2.1
      (callOn 1) (by decide),
   ((C8_setInfo_false_eq_delInfo (locus [callOn 0, callOn 1]) store7 "DB").2.2.2
      1 "DP" (Or.inl (by decide))).trans (by decide)⟩

/-- C9: `getInfoString` returns the string value of the first call, in stored
order, whose record's string value for the key is non-empty (every call before
it reads as empty), and returns the empty string when no call has a non-empty
value, in particular when there are no calls. -/
theorem C9_getInfoString_first_non_empty {RefVar : Type} (v : Variants RefVar)
    (st : Store) (id : String) :
    (∀ (pre : List Call) (c : Call) (post : List Call),
      v.calls = pre ++ c :: post →
      (∀ p ∈ pre, bcfhelpers.getInfoString st p.bcf_hdr p.bcf_rec id "" = "") →
      bcfhelpers.getInfoString st c.bcf_hdr c.bcf_rec id "" ≠ "" →
      v.getInfoString st id = bcfhelpers.getInfoString st c.bcf_hdr c.bcf_rec id "") ∧
    ((∀ c ∈ v.calls, bcfhelpers.getInfoString st c.bcf_hdr c.bcf_rec id "" = "") →
      v.getInfoString st id = "") ∧
    (v.calls = [] → v.getInfoString st id = "") := by
  refine ⟨?_, ?_, ?_⟩
  · intro pre c post hsplit hpre hc
    unfold Variants.getInfoString
    rw [hsplit]
    exact getInfoString_loop_first st id pre c post hpre hc
  · intro hall
    exact getInfoString_loop_none st id v.calls hall
  · intro hnil
    unfold Variants.getInfoString
    rw [hnil]
    rfl

/-- C9, at calls `[A, B]` where A has no `SRC` and B's is `"x"`: the result is
`"x"`; for the key `ID`, which no record has, it is empty. -/
theorem C9_getInfoString_first_non_empty_witness :
    bcfhelpers.getInfoString store7 0 0 "SRC" "" = "" ∧
    (locus [callOn 0, callOn 1]).getInfoString store7 "SRC" = "x" ∧
    (locus [callOn 0, callOn 1]).getInfoString store7 "ID" = "" :=
  ⟨by decide,
   ((C9_getInfoString_first_non_empty (locus [callOn 0, callOn 1]) store7 "SRC").1
      [callOn 0] (callOn 1) [] rfl (by decide) (by decide)).trans (by decide),
   (C9_getInfoString_first_non_empty (locus [callOn 0, callOn 1]) store7 "ID").2.1
      (by decide)⟩

/-- C10: `getInfoFlag` returns true if and only if at least one call's record
has the flag set for the key; with no calls it returns false. -/
theorem C10_getInfoFlag_iff_any {RefVar : Type} (v : Variants RefVar)
    (st : Store) (id : String) :
    (v.getInfoFlag st id = true ↔
      ∃ c ∈ v.calls, bcfhelpers.getInfoFlag st c.bcf_hdr c.bcf_rec id = true) ∧
    (v.calls = [] → v.getInfoFlag st id = false) := by
  refine ⟨getInfoFlag_loop_iff st id v.calls, ?_⟩
  intro hnil
  unfold Variants.getInfoFlag
  rw [hnil]
  rfl

/-- C10, at calls `[A, B]` where only B's record carries the flag `DB`:
`getInfoFlag("DB")` is true, `getInfoFlag("DP")` is false, and with no calls
`getInfoFlag("DB")` is false. -/
theorem C10_getInfoFlag_iff_any_witness :
    (locus [callOn 0, callOn 1]).getInfoFlag store7 "DB" = true ∧
    (locus [callOn 0, callOn 1]).getInfoFlag store7 "DP" = false ∧
    (locus []).getInfoFlag store7 "DB" = false :=
  ⟨(C10_getInfoFlag_iff_any (locus [callOn 0, callOn 1]) store7 "DB").1.mpr
      ⟨callOn 1, by decide, by decide⟩,
   by decide,
   (C10_getInfoFlag_iff_any (locus []) store7 "DB").2 rfl⟩

/-! ## Floating-point INFO read -/

/-- The loop of `Variants::getInfoFloat` skips calls whose value is NaN and
stops at the first call whose value is not, returning that value narrowed. -/
theorem getInfoFloat_loop_first {D F : Type} (getInfoDouble : Nat → Nat → String → D)
    (isnan : D → Bool) (toFloat : D → F) (quiet_NaN : F) (id : String)
    (pre : List Call) (c : Call) (post : List Call)
    (hpre : ∀ p ∈ pre, isnan (getInfoDouble p.bcf_hdr p.bcf_rec id) = true)
    (hc : isnan (getInfoDouble c.bcf_hdr c.bcf_rec id) = false) :
    getInfoFloat_loop getInfoDouble isnan toFloat quiet_NaN id (pre ++ c :: post)
      = toFloat (getInfoDouble c.bcf_hdr c.bcf_rec id) := by
  induction pre with
  | nil => simp [getInfoFloat_loop, hc]
  | cons p ps ih =>
    have hp := hpre p (List.mem_cons_self p ps)
    have hps := fun q hq => hpre q (List.mem_cons_of_mem p hq)
    simp only [List.cons_append, getInfoFloat_loop, hp, not_true_eq_false, if_false]
    exact ih hps

/-- When every call's value is NaN, the loop of `Variants::getInfoFloat` runs
to its end and returns the quiet NaN. -/
theorem getInfoFloat_loop_none {D F : Type} (getInfoDouble : Nat → Nat → String → D)
    (isnan : D → Bool) (toFloat : D → F) (quiet_NaN : F) (id : String) (cs : List Call)
    (hall : ∀ p ∈ cs, isnan (getInfoDouble p.bcf_hdr p.bcf_rec id) = true) :
    getInfoFloat_loop getInfoDouble isnan toFloat quiet_NaN id cs = quiet_NaN := by
  induction cs with
  | nil => rfl
  | cons p ps ih =>
    have hp := hall p (List.mem_cons_self p ps)
    have hps := fun q hq => hall q (List.mem_cons_of_mem p hq)
    simp only [getInfoFloat_loop, hp, not_true_eq_false, if_false]
    exact ih hps

/-- The result of the loop of `Variants::getInfoFloat` is NaN exactly when
every call's value is NaN, given that the quiet NaN is a NaN and that the
narrowing cast turns no non-NaN into a NaN. -/
theorem getInfoFloat_loop_isnan_iff {D F : Type} (getInfoDouble : Nat → Nat → String → D)
    (isnan : D → Bool) (isnanF : F → Bool) (toFloat : D → F) (quiet_NaN : F)
    (hq : isnanF quiet_NaN = true)
    (hcast : ∀ d, isnan d = false → isnanF (toFloat d) = false)
    (id : String) (cs : List Call) :
    isnanF (getInfoFloat_loop getInfoDouble isnan toFloat quiet_NaN id cs) = true ↔
      ∀ c ∈ cs, isnan (getInfoDouble c.bcf_hdr c.bcf_rec id) = true := by
  induction cs with
  | nil => simp [getInfoFloat_loop, hq]
  | cons p ps ih =>
    cases hp : isnan (getInfoDouble p.bcf_hdr p.bcf_rec id) with
    | true => simp [getInfoFloat_loop, hp, ih]
    | false => simp [getInfoFloat_loop, hp, hcast _ hp]

/-- C11: `getInfoFloat` returns the value of the first call, in stored order,
whose record's floating value for the key is not NaN (every call before it
reads as NaN), narrowed from double to float; it returns the quiet NaN when
every call's value is NaN, in particular when there are no calls; and the
result is NaN if and only if no call has a non-NaN value.  The floating-point
types, the NaN tests, the cast and the quiet NaN are parameters; what is used
of them is that the quiet NaN is a NaN and that narrowing a non-NaN gives a
non-NaN. -/
theorem C11_getInfoFloat_first_non_nan {RefVar D F : Type}
    (getInfoDouble : Nat → Nat → String → D)
    (isnan : D → Bool) (isnanF : F → Bool) (toFloat : D → F) (quiet_NaN : F)
    (hq : isnanF quiet_NaN = true)
    (hcast : ∀ d, isnan d = false → isnanF (toFloat d) = false)
    (v : Variants RefVar) (id : String) :
    (∀ (pre : List Call) (c : Call) (post : List Call),
      v.calls = pre ++ c :: post →
      (∀ p ∈ pre, isnan (getInfoDouble p.bcf_hdr p.bcf_rec id) = true) →
      isnan (getInfoDouble c.bcf_hdr c.bcf_rec id) = false →
      v.getInfoFloat getInfoDouble isnan toFloat quiet_NaN id
        = toFloat (getInfoDouble c.bcf_hdr c.bcf_rec id)) ∧
    ((∀ c ∈ v.calls, isnan (getInfoDouble c.bcf_hdr c.bcf_rec id) = true) →
      v.getInfoFloat getInfoDouble isnan toFloat quiet_NaN id = quiet_NaN) ∧
    (v.calls = [] → v.getInfoFloat getInfoDouble isnan toFloat quiet_NaN id = quiet_NaN) ∧
    (isnanF (v.getInfoFloat getInfoDouble isnan toFloat quiet_NaN id) = true ↔
      ∀ c ∈ v.calls, isnan (getInfoDouble c.bcf_hdr c.bcf_rec id) = true) := by
  refine ⟨?_, ?_, ?_, ?_⟩
  · intro pre c post hsplit hpre hc
    unfold Variants.getInfoFloat
    rw [hsplit]
    exact getInfoFloat_loop_first getInfoDouble isnan toFloat quiet_NaN id pre c post hpre hc
  · intro hall
    exact getInfoFloat_loop_none getInfoDouble isnan toFloat quiet_NaN id v.calls hall
  · intro hnil
    unfold Variants.getInfoFloat
    rw [hnil]
    rfl
  · exact getInfoFloat_loop_isnan_iff getInfoDouble isnan isnanF toFloat quiet_NaN hq hcast
      id v.calls

/-- C11, at calls `[A, B, C]` where A has no value, B has `QD = 3` and C has
`QD = 4`: the result for `QD` is B's value; for the key `MQ`, which no record
has, the result is NaN.  NaN is played by `none`. -/
theorem C11_getInfoFloat_first_non_nan_witness :
    (locus [callOn 0, callOn 1, callOn 2]).getInfoFloat exampleDouble Option.isNone id none
      "QD" = some 3 ∧
    Option.isNone ((locus [callOn 0, callOn 1, callOn 2]).getInfoFloat exampleDouble
      Option.isNone id none "MQ") = true :=
  ⟨((C11_getInfoFloat_first_non_nan exampleDouble Option.isNone Option.isNone id none rfl
        (fun _ h => h) (locus [callOn 0, callOn 1, callOn 2]) "QD").1
      [callOn 0] (callOn 1) [callOn 2] rfl (by decide) (by decide)).trans (by decide),
   (C11_getInfoFloat_first_non_nan exampleDouble Option.isNone Option.isNone id none rfl
        (fun _ h => h) (locus [callOn 0, callOn 1, callOn 2]) "MQ").2.2.2.mpr (by decide)⟩

/-! ## Genotype classifier: dependence on its input -/

/-- C19: the classifier depends only on `ngt` and on the slots it reads: two
calls with the same `ngt` that agree on `gt[0]` when `ngt == 1`, or on `gt[0]`
and `gt[1]` when `ngt == 2`, are classified alike, whatever their `phased`
flag, filters, record handles and other slots; for `ngt` outside `{1, 2}` no
condition on the slots is left, so the result depends on no allele value. -/
theorem C19_getGTType_depends_on_read_slots (c1 c2 : Call) (hn : c1.ngt = c2.ngt)
    (h1 : c1.ngt = 1 → c1.gt[0]? = c2.gt[0]?)
    (h2 : c1.ngt = 2 → c1.gt[0]? = c2.gt[0]? ∧ c1.gt[1]? = c2.gt[1]?) :
    getGTType c1 = getGTType c2 := by
  by_cases hn1 : c1.ngt = 1
  · have hn1b : c2.ngt = 1 := by omega
    simp only [getGTType, hn1, hn1b, h1 hn1, if_true]
  · by_cases hn2 : c1.ngt = 2
    · have hn2b : c2.ngt = 2 := by omega
      simp only [getGTType, hn2, hn2b, (h2 hn2).1, (h2 hn2).2]
    · rw [getGTType_of_ngt_other c1 hn1 hn2,
        getGTType_of_ngt_other c2 (by omega) (by omega)]

/-- C19, at two diploid calls with alleles `0, 3` that differ in phasing,
filters, record handles and a third slot, and at two calls of ploidy 3 with
different alleles. -/
theorem C19_getGTType_depends_on_read_slots_witness :
    getGTType { gt := [0, 3, 9], ngt := 2, phased := true, nfilter := 1, filter := ["q10"],
                bcf_hdr := 4, bcf_rec := 5 } = getGTType (mkCall [0, 3] 2) ∧
    getGTType (mkCall [1, 2, 3] 3) = getGTType (mkCall [0, -1, 7] 3) :=
  ⟨C19_getGTType_depends_on_read_slots _ (mkCall [0, 3] 2) rfl (fun _ => rfl)
      (fun _ => ⟨rfl, rfl⟩),
   C19_getGTType_depends_on_read_slots (mkCall [1, 2, 3] 3) (mkCall [0, -1, 7] 3) rfl
      (fun h => absurd h (by decide)) (fun h => absurd h (by decide))⟩

/-- C20: for `ngt == 2`, a call with alleles `(a, b)` and a call with alleles
`(b, a)` are classified alike, for all integers `a` and `b`. -/
theorem C20_getGTType_swap (c1 c2 : Call) (a b : Int)
    (hn1 : c1.ngt = 2) (hn2 : c2.ngt = 2)
    (h10 : c1.gt[0]? = some a) (h11 : c1.gt[1]? = some b)
    (h20 : c2.gt[0]? = some b) (h21 : c2.gt[1]? = some a) :
    getGTType c1 = getGTType c2 := by
  rw [getGTType_of_ngt_two c1 a b hn1 h10 h11, getGTType_of_ngt_two c2 b a hn2 h20 h21]
  split_ifs <;> first | rfl | (exfalso; omega)

/-- C20, at alleles `(0, 3)` against `(3, 0)` and `(2, -1)` against
`(-1, 2)`. -/
theorem C20_getGTType_swap_witness :
    getGTType (mkCall [0, 3] 2) = getGTType (mkCall [3, 0] 2) ∧
    getGTType (mkCall [2, -1] 2) = getGTType (mkCall [-1, 2] 2) :=
  ⟨C20_getGTType_swap (mkCall [0, 3] 2) (mkCall [3, 0] 2) 0 3 rfl rfl rfl rfl rfl rfl,
   C20_getGTType_swap (mkCall [2, -1] 2) (mkCall [-1, 2] 2) 2 (-1) rfl rfl
      (by decide) (by decide) (by decide) (by decide)⟩

/-! ## Rendering of a genotype category -/

/-- C18: each of the six categories renders as its symbolic name, every value
that is no enumerator's value renders as `gt_unknown`, and the six names are
pairwise distinct.  The enumerators' values are pairwise distinct, as the
`switch` over them requires. -/
theorem C18_show_gttype_names (code : gttype → Int) (hinj : Function.Injective code) :
    show_gttype code (code gttype.gt_haploid) = "gt_haploid" ∧
    show_gttype code (code gttype.gt_homref) = "gt_homref" ∧
    show_gttype code (code gttype.gt_homalt) = "gt_homalt" ∧
    show_gttype code (code gttype.gt_het) = "gt_het" ∧
    show_gttype code (code gttype.gt_hetalt) = "gt_hetalt" ∧
    show_gttype code (code gttype.gt_unknown) = "gt_unknown" ∧
    (∀ v : Int, (∀ t : gttype, v ≠ code t) → show_gttype code v = "gt_unknown") ∧
    Function.Injective (fun t : gttype => show_gttype code (code t)) := by
  refine ⟨?_, ?_, ?_, ?_, ?_, ?_, ?_, ?_⟩
  · simp [show_gttype]
  · simp [show_gttype, hinj.eq_iff]
  · simp [show_gttype, hinj.eq_iff]
  · simp [show_gttype, hinj.eq_iff]
  · simp [show_gttype, hinj.eq_iff]
  · simp [show_gttype, hinj.eq_iff]
  · intro v hv
    simp [show_gttype, hv]
  · intro t1 t2 h
    cases t1 <;> cases t2 <;> first | rfl | (simp [show_gttype, hinj.eq_iff] at h)

/-- C18, with the enumerators numbered 0 to 5: `gt_het` renders as `gt_het`,
and the values 7 and -1, which are no enumerator's, render as `gt_unknown`. -/
theorem C18_show_gttype_names_witness :
    show_gttype enum_code (enum_code gttype.gt_het) = "gt_het" ∧
    show_gttype enum_code 7 = "gt_unknown" ∧
    show_gttype enum_code (-1) = "gt_unknown" :=
  ⟨(C18_show_gttype_names enum_code
      (fun a b h => by cases a <;> cases b <;> first | rfl | (exact absurd h (by decide)))).2.2.2.1,
   by decide, by decide⟩

/-! ## Identifiers -/

/-- While the counter does not wrap, the ids handed out are the consecutive
counter values. -/
theorem construct_many_ids (n c : Nat) (h : c + n ≤ 2 ^ 64) :
    (construct_many n c).1 = List.range' c n := by
  induction n generalizing c with
  | zero => rfl
  | succ n ih =>
    simp only [construct_many, Variants.ctor, List.range'_succ]
    cases n with
    | zero => rfl
    | succ m =>
      have hlt : (c + 1) % 2 ^ 64 = c + 1 := Nat.mod_eq_of_lt (by omega)
      rw [hlt, ih (c + 1) (by omega)]

/-- The counter after `n` constructions is the counter before plus `n`,
modulo `2 ^ 64`. -/
theorem construct_many_counter (n c : Nat) (hc : c < 2 ^ 64) :
    (construct_many n c).2 = (c + n) % 2 ^ 64 := by
  induction n generalizing c with
  | zero => exact (Nat.mod_eq_of_lt hc).symm
  | succ n ih =>
    simp only [construct_many, Variants.ctor]
    rw [ih ((c + 1) % 2 ^ 64) (Nat.mod_lt _ (by norm_num))]
    omega

/-- C17, as stated, fails where the counter wraps: from the counter value
`2 ^ 64 - 1` two constructions give the ids `2 ^ 64 - 1` and `0`, which are
not increasing. -/
theorem C17_ids_wrap_counterexample :
    (construct_many 2 (2 ^ 64 - 1)).1 = [2 ^ 64 - 1, 0] ∧
    ¬ List.Pairwise (fun x y => x < y) (construct_many 2 (2 ^ 64 - 1)).1 := by
  decide

/-- C17, amended: from a counter value `c` with `c + n ≤ 2 ^ 64`, constructing
`n` instances one after another gives the ids `c, c + 1, ..., c + n - 1` in
construction order (each id is the counter value at its construction), which
are strictly increasing and pairwise distinct; one construction returns the
counter as id and leaves the counter incremented by one modulo `2 ^ 64`, and
after the `n` constructions the counter is `(c + n) % 2 ^ 64`. -/
theorem C17_ids_increasing_without_wrap (c n : Nat) (hc : c < 2 ^ 64)
    (hn : c + n ≤ 2 ^ 64) :
    (Variants.ctor c).1 = c ∧ (Variants.ctor c).2 = (c + 1) % 2 ^ 64 ∧
    (∀ k, k < n → (construct_many n c).1[k]? = some (c + k)) ∧
    List.Pairwise (fun x y => x < y) (construct_many n c).1 ∧
    (construct_many n c).1.Nodup ∧
    (construct_many n c).2 = (c + n) % 2 ^ 64 := by
  refine ⟨rfl, rfl, ?_, ?_, ?_, construct_many_counter n c hc⟩
  · intro k hk
    rw [construct_many_ids n c hn, List.getElem?_range' c 1 hk, Nat.one_mul]
  · rw [construct_many_ids n c hn]
    exact List.pairwise_lt_range' c n
  · rw [construct_many_ids n c hn]
    exact List.nodup_range' c n

/-- C17, amended, at three constructions from the initial counter 0 and at
two constructions ending exactly at the wrap. -/
theorem C17_ids_increasing_without_wrap_witness :
    (construct_many 3 0).1 = [0, 1, 2] ∧
    List.Pairwise (fun x y => x < y) (construct_many 3 0).1 ∧
    (construct_many 3 0).2 = 3 ∧
    List.Pairwise (fun x y => x < y) (construct_many 2 (2 ^ 64 - 2)).1 ∧
    (construct_many 2 (2 ^ 64 - 2)).2 = 0 :=
  ⟨by decide,
   (C17_ids_increasing_without_wrap 0 3 (by decide) (by decide)).2.2.2.1,
   (C17_ids_increasing_without_wrap 0 3 (by decide) (by decide)).2.2.2.2.2,
   (C17_ids_increasing_without_wrap (2 ^ 64 - 2) 2 (by decide) (by decide)).2.2.2.1,
   (C17_ids_increasing_without_wrap (2 ^ 64 - 2) 2 (by decide) (by decide)).2.2.2.2.2⟩

/-! ## Rendering: lemmas on strings and loops -/

/-- Folding `++` over a list from an accumulator is the accumulator followed by
the fold from the empty string. -/
theorem foldl_append_acc (l : List String) (acc : String) :
    List.foldl (fun r s => r ++ s) acc l = acc ++ List.foldl (fun r s => r ++ s) "" l := by
  induction l generalizing acc with
  | nil => simp [String.append_empty]
  | cons x xs ih =>
    simp only [List.foldl_cons]
    rw [ih (acc ++ x), ih ("" ++ x), String.empty_append, String.append_assoc]

/-- `String.join` of the empty list. -/
theorem join_nil : String.join [] = "" := rfl

/-- `String.join` peels off its first string. -/
theorem join_cons (x : String) (xs : List String) :
    String.join (x :: xs) = x ++ String.join xs := by
  unfold String.join
  simp only [List.foldl_cons]
  rw [foldl_append_acc xs ("" ++ x), String.empty_append]

/-- A string followed by a non-empty string is not the string itself. -/
theorem append_ne_self (h t : String) (ht : t ≠ "") : h ++ t ≠ h := by
  intro heq
  apply ht
  have hd : (h ++ t).data = h.data := by rw [heq]
  rw [String.data_append, List.append_right_eq_self] at hd
  exact String.ext hd

/-- From an index `i > 0` on, every iteration of the separator loop writes the
separator and then the element: the text is what `String.intercalate` adds to
its accumulator for these elements. -/
theorem sep_loop_from (sep : String) (xs : List String) (k i : Nat) (hi : 0 < i)
    (h : i + k ≤ xs.length) :
    ∃ r, sep_loop sep xs k i = some r ∧
      ∀ acc, String.intercalate.go acc sep ((xs.drop i).take k) = acc ++ r := by
  induction k generalizing i with
  | zero =>
    refine ⟨"", rfl, ?_⟩
    intro acc
    simp [String.intercalate.go, String.append_empty]
  | succ k ih =>
    have hlt : i < xs.length := by omega
    obtain ⟨r, hr, hgo⟩ := ih (i + 1) (by omega) (by omega)
    refine ⟨sep ++ xs[i] ++ r, ?_, ?_⟩
    · simp only [sep_loop, List.getElem?_eq_getElem hlt, hr, if_pos hi]
    · intro acc
      rw [List.drop_eq_getElem_cons hlt, List.take_succ_cons]
      simp only [String.intercalate.go]
      rw [hgo (acc ++ sep ++ xs[i])]
      simp only [String.append_assoc]

/-- The separator loop over the first `k` elements writes them joined by the
separator. -/
theorem sep_loop_zero (sep : String) (xs : List String) (k : Nat) (h : k ≤ xs.length) :
    sep_loop sep xs k 0 = some (String.intercalate sep (xs.take k)) := by
  cases k with
  | zero => simp [sep_loop, String.intercalate]
  | succ k =>
    have hlt : 0 < xs.length := by omega
    obtain ⟨r, hr, hgo⟩ := sep_loop_from sep xs k 1 (by decide) (by omega)
    cases xs with
    | nil => exact absurd hlt (by simp)
    | cons x tl =>
      simp only [List.drop_succ_cons, List.drop_zero] at hgo
      simp only [sep_loop, List.getElem?_cons_zero, hr, List.take_succ_cons,
        String.intercalate, hgo x]
      simp [String.empty_append, String.append_assoc]

/-- The genotype part written by `operator<<(Call)`, the dot for `ngt == 0`
and the allele loop, is the genotype rendering of the spec. -/
theorem Call.genotype_part (c : Call) (hlen : c.ngt ≤ c.gt.length) :
    ∃ gts, c.gt_text = some gts ∧ (if c.ngt = 0 then "." else "") ++ gts = spec_genotype c := by
  have hl : c.ngt ≤ (c.gt.map showInt).length := by simpa using hlen
  refine ⟨_, sep_loop_zero _ (c.gt.map showInt) c.ngt hl, ?_⟩
  unfold spec_genotype
  by_cases h0 : c.ngt = 0
  · simp [h0, String.intercalate, String.append_empty]
  · simp only [if_neg h0, String.empty_append, List.map_take]

/-- A call without filters renders as its genotype part. -/
theorem Call.render_no_filter (c : Call) (hf : c.nfilter = 0) (hlen : c.ngt ≤ c.gt.length) :
    c.render = some (spec_genotype c) := by
  obtain ⟨gts, hg, hs⟩ := c.genotype_part hlen
  simp only [Call.render, hg, hf, gt_iff_lt, lt_self_iff_false, if_false, hs]

/-- A call with filters renders as its genotype part, a space and the filter
tags joined by commas. -/
theorem Call.render_filter (c : Call) (hf : 0 < c.nfilter)
    (hfl : c.nfilter ≤ c.filter.length) (hlen : c.ngt ≤ c.gt.length) :
    c.render = some (spec_genotype c ++ " "
      ++ String.intercalate "," (c.filter.take c.nfilter)) := by
  obtain ⟨gts, hg, hs⟩ := c.genotype_part hlen
  have hft : c.filter_text = some (String.intercalate "," (c.filter.take c.nfilter)) :=
    sep_loop_zero "," c.filter c.nfilter hfl
  simp only [Call.render, hg, hft, gt_iff_lt, hf, if_true, hs]

/-- The variation loop writes a space and the rendering for each variation. -/
theorem variation_text_eq {RefVar : Type} (showRefVar : RefVar → String) (l : List RefVar) :
    variation_text showRefVar l = String.join (l.map (fun rv => " " ++ showRefVar rv)) := by
  induction l with
  | nil => rfl
  | cons rv rest ih =>
    simp only [variation_text, List.map_cons, join_cons, ih, String.append_assoc]

/-- The call loop writes a space and the rendering for each call. -/
theorem calls_text_eq (cs : List Call) (texts : List String)
    (h : cs.map Call.render = texts.map some) :
    calls_text cs = some (String.join (texts.map (fun t => " " ++ t))) := by
  induction cs generalizing texts with
  | nil =>
    cases texts with
    | nil => rfl
    | cons t ts => simp at h
  | cons c cs ih =>
    cases texts with
    | nil => simp at h
    | cons t ts =>
      simp only [List.map_cons, List.cons.injEq] at h
      simp only [calls_text, h.1, ih ts h.2, List.map_cons, join_cons, String.append_assoc]

/-- The machine's `pos + len - 1` is the integer `pos + len - 1` whenever that
integer lies in the `int64_t` range (a wrap of the intermediate sum is undone
by the subtraction). -/
theorem int64_range_end (pos len : Int)
    (h : -2 ^ 63 ≤ pos + len - 1 ∧ pos + len - 1 < 2 ^ 63) :
    int64_sub (int64_add pos len) 1 = pos + len - 1 := by
  unfold int64_sub int64_add wrap_int64
  omega

/-- Lines 152-162 write the locus, the variations and the calls as the spec
words it. -/
theorem Variants.head_text_eq {RefVar : Type} (showRefVar : RefVar → String)
    (v : Variants RefVar) (texts : List String)
    (h : v.calls.map Call.render = texts.map some) :
    v.head_text showRefVar = some (spec_locus showRefVar v texts) := by
  simp only [Variants.head_text, calls_text_eq v.calls texts h, spec_locus, variation_text_eq]

/-- The search loop finds an entry exactly when some entry is non-empty. -/
theorem any_ambiguous_loop_iff (al : List (List Int)) :
    any_ambiguous_loop al = true ↔ ∃ x ∈ al, x ≠ [] := by
  induction al with
  | nil => simp [any_ambiguous_loop]
  | cons x xs ih =>
    by_cases hx : x = []
    · simp [any_ambiguous_loop, hx, ih]
    · simp [any_ambiguous_loop, hx]

/-- The inner loop of the ambig block writes every index followed by a space. -/
theorem ambig_inner_eq_join (x : List Int) :
    ambig_inner x = String.join (x.map (fun y => showInt y ++ " ")) := by
  induction x with
  | nil => rfl
  | cons y ys ih => simp only [ambig_inner, List.map_cons, join_cons, ih, String.append_assoc]

/-- The outer loop of the ambig block writes every entry followed by `;`. -/
theorem ambig_outer_eq_join (al : List (List Int)) :
    ambig_outer al
      = String.join (al.map (fun x => String.join (x.map (fun y => showInt y ++ " ")) ++ ";")) := by
  induction al with
  | nil => rfl
  | cons x xs ih =>
    simp only [ambig_outer, List.map_cons, join_cons, ih, ambig_inner_eq_join,
      String.append_assoc]

/-- Joining with single spaces and then adding one more space is writing every
element followed by a space. -/
theorem intercalate_go_space (acc : String) (ys : List Int) :
    String.intercalate.go acc " " (ys.map showInt) ++ " " = acc ++ " " ++ ambig_inner ys := by
  induction ys generalizing acc with
  | nil => simp [String.intercalate.go, ambig_inner, String.append_empty]
  | cons z zs ih =>
    simp only [List.map_cons, String.intercalate.go, ih, ambig_inner, String.append_assoc]

/-- For a non-empty entry the inner loop writes the indices separated by single
spaces, and one space after the last. -/
theorem ambig_inner_of_ne_nil (x : List Int) (hx : x ≠ []) :
    ambig_inner x = String.intercalate " " (x.map showInt) ++ " " := by
  cases x with
  | nil => exact absurd rfl hx
  | cons y ys =>
    simp only [List.map_cons, String.intercalate, intercalate_go_space, ambig_inner]

/-- The ambig block is never empty text. -/
theorem ambig_text_ne_empty (al : List (List Int)) : ambig_text al ≠ "" := by
  intro h
  have hd := congrArg String.data h
  simp [ambig_text, String.data_append] at hd

/-! ## Rendering: theorems -/

/-- C12: a call without filters renders as `.` when `ngt == 0` and otherwise
as the decimal renderings of its `ngt` allele indices in order, joined by `|`
when phased and by `/` when not, with no separator before the first or after
the last. -/
theorem C12_render_call_genotype (c : Call) (hf : c.nfilter = 0)
    (hlen : c.ngt ≤ c.gt.length) :
    (c.ngt = 0 → c.render = some ".") ∧
    (c.ngt ≠ 0 → c.phased = true →
      c.render = some (String.intercalate "|" ((c.gt.take c.ngt).map showInt))) ∧
    (c.ngt ≠ 0 → c.phased = false →
      c.render = some (String.intercalate "/" ((c.gt.take c.ngt).map showInt))) := by
  have h := c.render_no_filter hf hlen
  unfold spec_genotype at h
  refine ⟨?_, ?_, ?_⟩
  · intro h0
    rw [h, if_pos h0]
  · intro h0 hp
    rw [h, if_neg h0, hp]
    rfl
  · intro h0 hp
    rw [h, if_neg h0, hp]
    rfl

/-- C12, at alleles `[0, 1]`: `0|1` when phased and `0/1` when not; and `.`
for a call with `ngt == 0`. -/
theorem C12_render_call_genotype_witness :
    (callWith [0, 1] true []).render = some "0|1" ∧
    (callWith [0, 1] false []).render = some "0/1" ∧
    (callWith [] true []).render = some "." :=
  ⟨((C12_render_call_genotype (callWith [0, 1] true []) rfl (by decide)).2.1
      (by decide) rfl).trans (by decide),
   ((C12_render_call_genotype (callWith [0, 1] false []) rfl (by decide)).2.2
      (by decide) rfl).trans (by decide),
   (C12_render_call_genotype (callWith [] true []) rfl (by decide)).1 rfl⟩

/-- C13: a call with at least one filter renders as its genotype rendering
(`.` when `ngt == 0`, else the joined alleles), one space, and the filter tags
in stored order joined by `,`; a call with no filters renders as its genotype
rendering alone. -/
theorem C13_render_call_filters (c : Call) (hlen : c.ngt ≤ c.gt.length)
    (hfl : c.nfilter ≤ c.filter.length) :
    (0 < c.nfilter →
      c.render = some (spec_genotype c ++ " "
        ++ String.intercalate "," (c.filter.take c.nfilter))) ∧
    (c.nfilter = 0 → c.render = some (spec_genotype c)) :=
  ⟨fun hf => c.render_filter hf hfl hlen, fun hf => c.render_no_filter hf hlen⟩

/-- C13, at `ngt == 0` with filters `q10`, `LowGQ`: the rendering is
`. q10,LowGQ`; and at alleles `0/1` with the filter `q10`: `0/1 q10`. -/
theorem C13_render_call_filters_witness :
    (callWith [] false ["q10", "LowGQ"]).render = some ". q10,LowGQ" ∧
    (callWith [0, 1] false ["q10"]).render = some "0/1 q10" :=
  ⟨((C13_render_call_filters (callWith [] false ["q10", "LowGQ"]) (by decide)
      (by decide)).1 (by decide)).trans (by decide),
   ((C13_render_call_filters (callWith [0, 1] false ["q10"]) (by decide)
      (by decide)).1 (by decide)).trans (by decide)⟩

/-- With every ambiguous-allele set empty, a locus renders as its head. -/
theorem Variants.render_no_ambig {RefVar : Type} (showRefVar : RefVar → String)
    (v : Variants RefVar) (h : String) (hh : v.head_text showRefVar = some h)
    (hamb : ∀ x ∈ v.ambiguous_alleles, x = []) :
    v.render showRefVar = some h := by
  have hnone : any_ambiguous_loop v.ambiguous_alleles = false := by
    cases hb : any_ambiguous_loop v.ambiguous_alleles with
    | false => rfl
    | true =>
      obtain ⟨x, hx, hne⟩ := (any_ambiguous_loop_iff _).mp hb
      exact absurd (hamb x hx) hne
  simp [Variants.render, hh, hnone]

/-- With some ambiguous-allele set non-empty, a locus renders as its head
directly followed by the ambig block. -/
theorem Variants.render_ambig {RefVar : Type} (showRefVar : RefVar → String)
    (v : Variants RefVar) (h : String) (hh : v.head_text showRefVar = some h)
    (hany : ∃ x ∈ v.ambiguous_alleles, x ≠ []) :
    v.render showRefVar = some (h ++ ambig_text v.ambiguous_alleles) := by
  have hb : any_ambiguous_loop v.ambiguous_alleles = true :=
    (any_ambiguous_loop_iff _).mpr hany
  simp [Variants.render, hh, hb]

/-- C14, as stated, fails where `pos + len - 1` leaves the `int64_t` range: at
`chr = "1"`, `pos = 2 ^ 63 - 1`, `len = 2`, with no variations, no calls and no
ambiguous-allele sets, the range end written is `-9223372036854775808`, not
the decimal value `9223372036854775808` of `pos + len - 1`. -/
theorem C14_render_variants_overflow_counterexample :
    (∀ x ∈ locusEdge.ambiguous_alleles, x = []) ∧
    locusEdge.render (fun _ => "") = some "1:9223372036854775807--9223372036854775808" ∧
    locusEdge.chr ++ ":" ++ showInt locusEdge.pos ++ "-"
      ++ showInt (locusEdge.pos + locusEdge.len - 1)
      = "1:9223372036854775807-9223372036854775808" ∧
    locusEdge.render (fun _ => "")
      ≠ some (locusEdge.chr ++ ":" ++ showInt locusEdge.pos ++ "-"
          ++ showInt (locusEdge.pos + locusEdge.len - 1)) := by
  decide

/-- C14, amended: a locus whose ambiguous-allele sets are all empty and whose
`pos + len - 1` lies in the `int64_t` range renders as `chr`, `:`, the decimal
`pos`, `-`, the decimal `pos + len - 1`, then a space and the rendering for
each variation in order, then a space and the rendering for each call in
order, and nothing else.  `texts` are the renderings of the calls. -/
theorem C14_render_variants_plain {RefVar : Type} (showRefVar : RefVar → String)
    (v : Variants RefVar) (texts : List String)
    (hcalls : v.calls.map Call.render = texts.map some)
    (hamb : ∀ x ∈ v.ambiguous_alleles, x = [])
    (hrange : -2 ^ 63 ≤ v.pos + v.len - 1 ∧ v.pos + v.len - 1 < 2 ^ 63) :
    v.render showRefVar =
      some (v.chr ++ ":" ++ showInt v.pos ++ "-" ++ showInt (v.pos + v.len - 1)
        ++ String.join (v.variation.map (fun rv => " " ++ showRefVar rv))
        ++ String.join (texts.map (fun t => " " ++ t))) := by
  rw [Variants.render_no_ambig showRefVar v _
    (Variants.head_text_eq showRefVar v texts hcalls) hamb]
  unfold spec_locus
  rw [int64_range_end v.pos v.len hrange]

/-- C14, amended, at `chr = "1"`, `pos = 100`, `len = 1` without variations
and calls: `1:100-100`; and with the two calls `0|1` and `. q10`:
`1:100-100 0|1 . q10`. -/
theorem C14_render_variants_plain_witness :
    (locus []).render (fun _ => "") = some "1:100-100" ∧
    (locus [callWith [0, 1] true [], callWith [] false ["q10"]]).render (fun _ => "")
      = some "1:100-100 0|1 . q10" :=
  ⟨(C14_render_variants_plain (fun _ => "") (locus []) [] rfl
      (fun x hx => absurd hx (List.not_mem_nil x)) (by decide)).trans (by decide),
   (C14_render_variants_plain (fun _ => "")
      (locus [callWith [0, 1] true [], callWith [] false ["q10"]]) ["0|1", ". q10"]
      (by decide) (by decide) (by decide)).trans (by decide)⟩

/-- C15: the rendering of a locus is its locus/variations/calls text followed
by an `ambig[...]` block when some entry of `ambiguous_alleles` is non-empty,
and is that text alone when every entry is empty or there is none; so a block
is appended if and only if some entry is non-empty. -/
theorem C15_render_variants_ambig_iff {RefVar : Type} (showRefVar : RefVar → String)
    (v : Variants RefVar) (texts : List String)
    (hcalls : v.calls.map Call.render = texts.map some) :
    ((∃ x ∈ v.ambiguous_alleles, x ≠ []) →
      ∃ body, v.render showRefVar
        = some (spec_locus showRefVar v texts ++ ("ambig[" ++ body ++ "]"))) ∧
    ((∀ x ∈ v.ambiguous_alleles, x = []) →
      v.render showRefVar = some (spec_locus showRefVar v texts)) ∧
    (v.render showRefVar ≠ some (spec_locus showRefVar v texts) ↔
      ∃ x ∈ v.ambiguous_alleles, x ≠ []) := by
  have hh := Variants.head_text_eq showRefVar v texts hcalls
  have hyes : (∃ x ∈ v.ambiguous_alleles, x ≠ []) →
      v.render showRefVar
        = some (spec_locus showRefVar v texts ++ ambig_text v.ambiguous_alleles) :=
    Variants.render_ambig showRefVar v _ hh
  have hno : (∀ x ∈ v.ambiguous_alleles, x = []) →
      v.render showRefVar = some (spec_locus showRefVar v texts) :=
    Variants.render_no_ambig showRefVar v _ hh
  refine ⟨fun hany => ⟨ambig_outer v.ambiguous_alleles, hyes hany⟩, hno, ?_, ?_⟩
  · intro hne
    by_contra hnone
    apply hne
    apply hno
    intro x hx
    by_contra hx0
    exact hnone ⟨x, hx, hx0⟩
  · intro hany heq
    rw [hyes hany] at heq
    exact append_ne_self _ _ (ambig_text_ne_empty _) (Option.some.inj heq)

/-- C15, at the locus `1:100` with two calls: with the ambiguous-allele sets
`[[1, 2], [3]]` the text `1:100-100 . .` is followed by a block, with the sets
`[[], []]` it is not. -/
theorem C15_render_variants_ambig_iff_witness :
    locusAmbig.render (fun _ => "") ≠ some "1:100-100 . ." ∧
    (locus [callOn 0, callOn 1]).render (fun _ => "") = some "1:100-100 . ." :=
  ⟨fun h => absurd
      ((C15_render_variants_ambig_iff (fun _ => "") locusAmbig [".", "."] (by decide)).2.2.2
        ⟨[3], by decide, by decide⟩)
      (not_not.mpr (h.trans (by decide))),
   ((C15_render_variants_ambig_iff (fun _ => "") (locus [callOn 0, callOn 1]) [".", "."]
      (by decide)).2.1 (by decide)).trans (by decide)⟩

/-- C16, as stated, fails: for the ambiguous-allele sets `[[1, 2], [3]]` the
block written is `ambig[1 2 ;3 ;]`, with a space after the last index of every
call, and not `ambig[1 2;3;]`. -/
theorem C16_ambig_block_counterexample :
    spec_ambig_block [[1, 2], [3]] = "ambig[1 2;3;]" ∧
    locusAmbig.render (fun _ => "") = some "1:100-100 . .ambig[1 2 ;3 ;]" ∧
    locusAmbig.render (fun _ => "")
      ≠ some ("1:100-100 . ." ++ spec_ambig_block [[1, 2], [3]]) := by
  decide

/-- C16, amended: for a locus with at least one non-empty ambiguous-allele
set, the block appended is `ambig[`, then for each call in order each of its
ambiguous allele indices followed by a single space and then `;`, then `]`.
For a call with at least one index that is its indices separated by single
spaces, one more space, and `;`. -/
theorem C16_ambig_block_trailing_space {RefVar : Type} (showRefVar : RefVar → String)
    (v : Variants RefVar) (texts : List String)
    (hcalls : v.calls.map Call.render = texts.map some)
    (hany : ∃ x ∈ v.ambiguous_alleles, x ≠ []) :
    v.render showRefVar =
      some (spec_locus showRefVar v texts ++
        ("ambig["
          ++ String.join (v.ambiguous_alleles.map
              (fun x => String.join (x.map (fun y => showInt y ++ " ")) ++ ";"))
          ++ "]")) ∧
    (∀ x : List Int, x ≠ [] →
      String.join (x.map (fun y => showInt y ++ " ")) ++ ";"
        = String.intercalate " " (x.map showInt) ++ " " ++ ";") := by
  refine ⟨?_, ?_⟩
  · rw [Variants.render_ambig showRefVar v _
      (Variants.head_text_eq showRefVar v texts hcalls) hany]
    simp only [ambig_text, ambig_outer_eq_join]
  · intro x hx
    rw [← ambig_inner_eq_join, ambig_inner_of_ne_nil x hx]

/-- C16, amended, at the ambiguous-allele sets `[[1, 2], [3]]`: the rendering
is `1:100-100 . .` followed by `ambig[1 2 ;3 ;]`. -/
theorem C16_ambig_block_trailing_space_witness :
    locusAmbig.render (fun _ => "") = some ("1:100-100 . ." ++ "ambig[1 2 ;3 ;]") :=
  ((C16_ambig_block_trailing_space (fun _ => "") locusAmbig [".", "."] (by decide)
      ⟨[3], by decide, by decide⟩).1).trans (by decide)

end variant
